import Mathlib

/-!
Shallow embedding of the ESG PDF ingestion pipeline
(`add_documents_to_index.py`): chunker, embedding client boundary,
metadata classifier, document assembler, batch uploader and the
pipeline driver's configuration stage.  External services (tokenizer,
embedding service, upload service, MD5) are modelled as explicit
function parameters; machine behaviour that can fail is modelled with
`Option`/`Except`.
-/

namespace ESG

/-- The hard cap on chunks per document (`max_chunks = 1000` in
`chunk_text`). -/
def max_chunks : Nat := 1000

/-- The sliding-window loop of `chunk_text` (lines 80-94 of
`add_documents_to_index.py`).  `fuel` counts the remaining iterations
allowed by the `chunk_num < max_chunks` guard; each iteration slices
`tokens[start:end]` with `end = min (start + max_tokens) len`, appends
it, then sets `start = end - overlap` and breaks when
`start >= len tokens`. -/
def slide (tokens : List Nat) (max_tokens overlap : Nat) :
    Nat → Nat → List (List Nat)
  | _, 0 => []
  | start, fuel + 1 =>
    if start < tokens.length then
      let e := min (start + max_tokens) tokens.length
      let chunk := (tokens.drop start).take (e - start)
      let start' := e - overlap
      if tokens.length ≤ start' then [chunk]
      else chunk :: slide tokens max_tokens overlap start' fuel
    else []

/-- The decode loop over the produced windows: in the source each window
is decoded inside the same `try`, so one decoding failure aborts the
whole chunk list (and the surrounding handler returns `[text]`). -/
def decode_windows (dec : List Nat → Option String) :
    List (List Nat) → Option (List String)
  | [] => some []
  | w :: ws =>
    match dec w, decode_windows dec ws with
    | some s, some ss => some (s :: ss)
    | _, _ => none

/-- Embeds `chunk_text(text, max_tokens, overlap)` together with the observable
truncation warning (the `chunk_num >= max_chunks` print).  `enc` models
`tokenizer.encode` and `dec` models `tokenizer.decode`; a `none` from
either models the exception caught by the `except` handler, which
returns `[text]`. -/
def chunk_text_core (enc : String → Option (List Nat))
    (dec : List Nat → Option String) (text : String)
    (max_tokens overlap : Nat) : List String × Bool :=
  match enc text with
  | none => ([text], false)
  | some tokens =>
    if tokens.length ≤ max_tokens then ([text], false)
    else
      let windows := slide tokens max_tokens overlap 0 max_chunks
      match decode_windows dec windows with
      | none => ([text], false)
      | some chunks => (chunks, max_chunks ≤ chunks.length)

/-- The chunk list returned by `chunk_text`. -/
def chunk_text (enc : String → Option (List Nat))
    (dec : List Nat → Option String) (text : String)
    (max_tokens overlap : Nat) : List String :=
  (chunk_text_core enc dec text max_tokens overlap).1

/-- Whether `chunk_text` emitted its truncation warning. -/
def chunk_truncated (enc : String → Option (List Nat))
    (dec : List Nat → Option String) (text : String)
    (max_tokens overlap : Nat) : Bool :=
  (chunk_text_core enc dec text max_tokens overlap).2

/-! ### Metadata classifier (`get_esg_metadata`) -/

/-- Embeds the Python substring test (needle in hay) on lists of
characters. -/
def strContains (hay needle : List Char) : Bool :=
  needle.isPrefixOf hay ||
    match hay with
    | [] => false
    | _ :: t => strContains t needle

/-- Lower-casing of a filename, as a character list (the kernel cannot
reduce `String.toLower`, so the lowered filename is kept as
`List Char`). -/
def str_lower (s : String) : List Char := s.toList.map Char.toLower

/-- Substring containment of a keyword in the lowered filename. -/
def hasSub (haystack : List Char) (needle : String) : Bool :=
  strContains haystack needle.toList

/-- Embeds the year regex search (pattern 20 then two digits) followed
by int conversion: scan left to right for the first position matching
`2`, `0`, digit, digit and return the matched four-digit number. -/
def find_year : List Char → Option Nat
  | [] => none
  | c :: rest =>
    match c, rest with
    | '2', '0' :: d1 :: d2 :: _ =>
      if d1.isDigit && d2.isDigit then
        some (2000 + 10 * (d1.toNat - 48) + (d2.toNat - 48))
      else find_year rest
    | _, _ => find_year rest

/-- The metadata dict built by `get_esg_metadata`. -/
structure Metadata where
  institution : String
  document_type : String
  year : Nat
  tags : String
  deriving Repr, DecidableEq

/-- The enumerated corporate names, in source order. -/
def companies : List String :=
  ["microsoft", "apple", "google", "amazon", "tesla", "nvidia", "meta"]

/-- Title-casing as used on the single-word company names. -/
def title_case (s : String) : String := s.capitalize

/-- Embeds `get_esg_metadata` (lines 120-177): case-insensitive keyword rules
in an if/elif chain — frameworks, then corporate names, then topical
groups — followed by the unconditional year extraction. -/
def get_esg_metadata (file_name : String) : Metadata :=
  let filename := str_lower file_name
  let metadata : Metadata :=
    { institution := "Unknown", document_type := "ESG Document",
      year := 2024, tags := "esg,sustainability" }
  let metadata :=
    if hasSub filename "gri" then
      { metadata with
        institution := "Global Reporting Initiative"
        document_type := "GRI Standards"
        tags := "gri,standards,sustainability,reporting" }
    else if hasSub filename "sasb" then
      { metadata with
        institution := "Sustainability Accounting Standards Board"
        document_type := "SASB Standards"
        tags := "sasb,standards,sustainability,accounting" }
    else if hasSub filename "tcfd" then
      { metadata with
        institution := "Task Force on Climate-related Financial Disclosures"
        document_type := "TCFD Framework"
        tags := "tcfd,climate,risk,disclosure" }
    else if companies.any (fun c => hasSub filename c) then
      let metadata :=
        match companies.find? (fun c => hasSub filename c) with
        | some c => { metadata with institution := title_case c }
        | none => metadata
      if hasSub filename "sustainability" || hasSub filename "esg" then
        { metadata with
          document_type := "Corporate ESG Report"
          tags := "corporate,esg,sustainability,report" }
      else if hasSub filename "climate" then
        { metadata with
          document_type := "Climate Report"
          tags := "climate,corporate,environmental" }
      else metadata
    else if ["climate", "carbon", "environment", "green"].any
        (fun t => hasSub filename t) then
      { metadata with
        document_type := "Environmental Report"
        tags := "environmental,climate,carbon,green" }
    else if ["diversity", "social", "inclusion", "community"].any
        (fun t => hasSub filename t) then
      { metadata with
        document_type := "Social Impact Report"
        tags := "social,diversity,inclusion,community" }
    else if ["governance", "board", "ethics", "compliance"].any
        (fun t => hasSub filename t) then
      { metadata with
        document_type := "Governance Report"
        tags := "governance,ethics,compliance,board" }
    else metadata
  match find_year filename with
  | some y => { metadata with year := y }
  | none => metadata

/-! ### Embedding client boundary (`get_embeddings`) -/

/-- Embeds `get_embeddings` (lines 106-118): the service call either
returns a vector or throws; the handler degrades any exception to the
empty list.  Float components are irrelevant to every claim, so the
vector is modelled as `List Int`. -/
def get_embeddings (svc : String → Except Unit (List Int))
    (text : String) : List Int :=
  match svc text with
  | Except.ok v => v
  | Except.error _ => []

/-! ### Document assembler and per-file chunk loop (`main`, lines
263-310) -/

/-- The chunk-position suffix of the identifier (line 268). -/
def chunk_suffix (i total_chunks : Nat) : String :=
  if 1 < total_chunks then "_chunk" ++ toString i else "_single"

/-- Embeds the identifier computation of line 269: the MD5 hash (an
external library function, passed as `md5`) of the filename followed by
the chunk suffix. -/
def doc_id (md5 : String → String) (file_name : String)
    (i total_chunks : Nat) : String :=
  md5 (file_name ++ chunk_suffix i total_chunks)

/-- The record uploaded to the index (the dict of lines 285-302).
`relevance_score` is `len(chunk.split())/1000.0`; only its numerator is
kept, floats playing no part in any claim. -/
structure DocumentRecord where
  id : String
  title : String
  content : String
  summary : String
  document_type : String
  institution : String
  year : Nat
  tags : String
  chunk_index : Nat
  total_chunks : Nat
  file_path : String
  file_size : Nat
  created_date : String
  relevance_words : Nat
  content_vector : List Int
  deriving Repr, DecidableEq

/-- Embeds the record construction for one chunk (lines 267-302),
given the chunk's index `i` and the file's total chunk count `n`. -/
def assemble_document (md5 : String → String) (file_name file_path : String)
    (file_size : Nat) (meta : Metadata) (now : String) (n i : Nat)
    (chunk : String) (embeddings : List Int) : DocumentRecord :=
  { id := doc_id md5 file_name i n
    title := file_name ++ (if 1 < n then
      " (Part " ++ toString (i + 1) ++ "/" ++ toString n ++ ")" else "")
    content := chunk
    summary := if 1 < n then
        "Part " ++ toString (i + 1) ++ " of " ++ toString n ++ " from " ++
          file_name
      else "Complete content from " ++ file_name
    document_type := meta.document_type
    institution := meta.institution
    year := meta.year
    tags := meta.tags
    chunk_index := i
    total_chunks := n
    file_path := file_path
    file_size := file_size
    created_date := now
    relevance_words := (chunk.split (fun c => c = ' ')).length
    content_vector := embeddings }

/-- The per-chunk loop of `main` (lines 263-304), carried out from
chunk index `i` on: each chunk is embedded, a chunk with an empty
embedding is skipped (`continue`), every other chunk is assembled into
a record. -/
def process_chunks_from (md5 : String → String)
    (svc : String → Except Unit (List Int)) (file_name file_path : String)
    (file_size : Nat) (meta : Metadata) (now : String) (n : Nat) :
    Nat → List String → List DocumentRecord
  | _, [] => []
  | i, chunk :: rest =>
    let embeddings := get_embeddings svc chunk
    if embeddings.isEmpty then
      process_chunks_from md5 svc file_name file_path file_size meta now n
        (i + 1) rest
    else
      assemble_document md5 file_name file_path file_size meta now n i
          chunk embeddings ::
        process_chunks_from md5 svc file_name file_path file_size meta now n
          (i + 1) rest

/-- The records produced for one file from its chunk list
(`file_documents` of `main`); `total_chunks` is the chunk count of the
whole file. -/
def process_chunks (md5 : String → String)
    (svc : String → Except Unit (List Int)) (file_name file_path : String)
    (file_size : Nat) (meta : Metadata) (now : String)
    (chunks : List String) : List DocumentRecord :=
  process_chunks_from md5 svc file_name file_path file_size meta now
    chunks.length 0 chunks

/-! ### Batch uploader (`main`, lines 330-358) -/

/-- Embeds the slicing `all_documents[i:i+batch_size]` for
`i in range(0, len(all_documents), batch_size)`. -/
def batches (batch_size : Nat) (docs : List α) : List (List α) :=
  if hs : docs.isEmpty ∨ batch_size = 0 then []
  else docs.take batch_size :: batches batch_size (docs.drop batch_size)
termination_by docs.length
decreasing_by
  cases docs with
  | nil => simp at hs
  | cons d ds =>
    simp only [List.length_drop, List.length_cons]
    omega

/-- The upload loop: `svc b` is the outcome of the upload call for the
`b`-th batch — a per-record success list, or a thrown exception.  A
successful call adds the number of records the service reports as
succeeded; a throw adds nothing; either way the loop proceeds to the
next batch. -/
def upload_batches (svc : Nat → Except Unit (List Bool)) :
    Nat → List (List α) → Nat
  | _, [] => 0
  | b, _batch :: rest =>
    (match svc b with
     | Except.ok result => (result.filter (fun r => r)).length
     | Except.error _ => 0) +
      upload_batches svc (b + 1) rest

/-- `total_uploaded` after the whole upload phase. -/
def upload_documents_total (svc : Nat → Except Unit (List Bool))
    (docs : List α) (batch_size : Nat) : Nat :=
  upload_batches svc 0 (batches batch_size docs)

/-! ### Configuration stage of the driver (`main`, lines 187-216) -/

/-- The environment variables required at lines 188-193. -/
def required_vars : List String :=
  ["AZURE_SEARCH_ENDPOINT", "AZURE_SEARCH_KEY",
   "AZURE_OPENAI_EMBEDDINGS_ENDPOINT", "AZURE_OPENAI_EMBEDDINGS_API_KEY"]

/-- Python falsiness of `os.getenv(var)`: unset, or set to the empty
string. -/
def env_falsy (env : String → Option String) (v : String) : Bool :=
  match env v with
  | none => true
  | some s => s = ""

/-- The `missing_vars` list comprehension of line 195. -/
def missing_vars (env : String → Option String) : List String :=
  required_vars.filter (env_falsy env)

/-- Embeds `os.getenv(key, default)`: the default applies only when the
variable is unset. -/
def getenv_default (env : String → Option String) (key dflt : String) :
    String :=
  match env key with
  | some s => s
  | none => dflt

/-- The configuration assembled by `main` when no required variable is
missing (lines 204-216). -/
structure Config where
  search_endpoint : String
  search_key : String
  embeddings_endpoint : String
  embeddings_api_key : String
  api_version : String
  embedding_model : String
  deriving Repr, DecidableEq

/-- The configuration stage: abort with the missing-variable listing,
or build the clients' configuration, defaulting the API version and the
deployment name. -/
def init_config (env : String → Option String) :
    Except (List String) Config :=
  if missing_vars env ≠ [] then Except.error (missing_vars env)
  else Except.ok
    { search_endpoint := getenv_default env "AZURE_SEARCH_ENDPOINT" ""
      search_key := getenv_default env "AZURE_SEARCH_KEY" ""
      embeddings_endpoint :=
        getenv_default env "AZURE_OPENAI_EMBEDDINGS_ENDPOINT" ""
      embeddings_api_key :=
        getenv_default env "AZURE_OPENAI_EMBEDDINGS_API_KEY" ""
      api_version :=
        getenv_default env "AZURE_OPENAI_API_VERSION" "2024-02-01"
      embedding_model := getenv_default env
        "AZURE_OPENAI_EMBEDDINGS_DEPLOYMENT_NAME" "text-embedding-3-large" }

/-- How a run of `main` ends: each constructor is one of the early
`return`s (lines 196-199, 219-222, 227-229, 370-371) or the final
summary print (lines 360-369). -/
inductive RunOutcome where
  | missingVars (vs : List String)
  | dirNotFound
  | noPdfFiles
  | noDocuments (files_found : Nat)
  | done (files_found files_processed chunks_total total_uploaded : Nat)
  deriving Repr, DecidableEq

/-- The driver (`main`): configuration check, directory discovery, the
per-file extract/classify/chunk/embed/assemble loop, and the batch
upload phase.  `extract` models `extract_pdf_content` (already degraded
to an empty string on failure), `listing` the directory glob (`none`
when the directory does not exist), each file carrying its byte
size. -/
def main_run (env : String → Option String) (md5 : String → String)
    (enc : String → Option (List Nat)) (dec : List Nat → Option String)
    (extract : String → String)
    (embSvc : String → Except Unit (List Int))
    (upSvc : Nat → Except Unit (List Bool))
    (listing : Option (List (String × String × Nat))) (now : String) :
    RunOutcome :=
  match init_config env with
  | Except.error vs => RunOutcome.missingVars vs
  | Except.ok _ =>
    match listing with
    | none => RunOutcome.dirNotFound
    | some pdf_files =>
      if pdf_files.isEmpty then RunOutcome.noPdfFiles
      else
        let processed := pdf_files.map (fun f =>
          let (file_name, fpath, fsize) := f
          let text := extract file_name
          if text = "" then ([], false)
          else
            let meta := get_esg_metadata file_name
            let chunks := chunk_text enc dec text 800 150
            (process_chunks md5 embSvc file_name fpath fsize meta now
              chunks, true))
        let all_documents := (processed.map Prod.fst).flatten
        let processed_files :=
          (processed.filter (fun p => p.2)).length
        if all_documents.isEmpty then
          RunOutcome.noDocuments pdf_files.length
        else
          RunOutcome.done pdf_files.length processed_files
            all_documents.length
            (upload_documents_total upSvc all_documents 5)

/-- An upload service for concrete runs: the first batch reports three
successes and two failures, every later call throws. -/
def upload_svc_ex : Nat → Except Unit (List Bool) :=
  fun b => if b = 0 then Except.ok [true, true, true, false, false]
    else Except.error ()

/-- An environment with exactly the four required variables set and
everything else — the API version and the deployment name among them —
unset. -/
def env_with_required : String → Option String :=
  fun v => if v ∈ required_vars then some "set" else none

/-! ## Lemmas and claim theorems -/

/-- With a positive overlap the loop's two exit conditions
(`start < len tokens` and the `break`) can never fire once the window
has reached the end of the text, because `start = end - overlap` stays
strictly below `len tokens`; hence the loop always consumes all its
fuel. -/
theorem slide_length_eq_fuel (tokens : List Nat) (max_tokens overlap : Nat)
    (hov : 1 ≤ overlap) :
    ∀ fuel start, start < tokens.length →
      (slide tokens max_tokens overlap start fuel).length = fuel := by
  intro fuel
  induction fuel with
  | zero => intro start _; rfl
  | succ n ih =>
    intro start hs
    have he : min (start + max_tokens) tokens.length ≤ tokens.length :=
      Nat.min_le_right _ _
    have hlt : min (start + max_tokens) tokens.length - overlap <
        tokens.length := by omega
    rw [slide]
    simp only [if_pos hs, if_neg (by omega : ¬ tokens.length ≤
      min (start + max_tokens) tokens.length - overlap)]
    simp [ih _ hlt]

/-- Every window produced by the loop holds at most `max_tokens`
tokens. -/
theorem slide_window_le (tokens : List Nat) (max_tokens overlap : Nat) :
    ∀ fuel start, ∀ w ∈ slide tokens max_tokens overlap start fuel,
      w.length ≤ max_tokens := by
  intro fuel
  induction fuel with
  | zero => intro start w hw; simp [slide] at hw
  | succ n ih =>
    intro start w hw
    rw [slide] at hw
    by_cases hs : start < tokens.length
    · simp only [if_pos hs] at hw
      by_cases hb : tokens.length ≤ min (start + max_tokens) tokens.length - overlap
      · simp only [if_pos hb, List.mem_singleton] at hw
        subst hw
        simp only [List.length_take, List.length_drop]
        omega
      · simp only [if_neg hb, List.mem_cons] at hw
        rcases hw with rfl | hw
        · simp only [List.length_take, List.length_drop]
          omega
        · exact ih _ w hw
    · simp [if_neg hs] at hw

/-- The number of windows never exceeds the fuel. -/
theorem slide_length_le_fuel (tokens : List Nat) (max_tokens overlap : Nat) :
    ∀ fuel start,
      (slide tokens max_tokens overlap start fuel).length ≤ fuel := by
  intro fuel
  induction fuel with
  | zero => intro start; simp [slide]
  | succ n ih =>
    intro start
    rw [slide]
    by_cases hs : start < tokens.length
    · simp only [if_pos hs]
      by_cases hb : tokens.length ≤ min (start + max_tokens) tokens.length - overlap
      · simp [if_pos hb]
      · simp only [if_neg hb, List.length_cons]
        exact Nat.succ_le_succ (ih _)
    · simp [if_neg hs]

/-- Decoding with a total decoder succeeds and maps the windows. -/
theorem decode_windows_total (g : List Nat → String) :
    ∀ ws, decode_windows (fun w => some (g w)) ws = some (ws.map g) := by
  intro ws
  induction ws with
  | nil => rfl
  | cons w ws ih => simp [decode_windows, ih]


/-- A successful decode preserves the window count. -/
theorem decode_windows_length (dec : List Nat → Option String) :
    ∀ ws l, decode_windows dec ws = some l → l.length = ws.length := by
  intro ws
  induction ws with
  | nil => intro l h; cases h; rfl
  | cons w ws ih =>
    intro l h
    rw [decode_windows] at h
    cases hw : dec w with
    | none => rw [hw] at h; cases h
    | some s =>
      rw [hw] at h
      cases hws : decode_windows dec ws with
      | none => rw [hws] at h; cases h
      | some ss =>
        rw [hws] at h
        cases h
        simp [ih ss hws]

/-- A decoder that never fails decodes every window list. -/
theorem decode_windows_isSome (dec : List Nat → Option String)
    (hdec : ∀ w, (dec w).isSome) :
    ∀ ws, (decode_windows dec ws).isSome := by
  intro ws
  induction ws with
  | nil => rfl
  | cons w ws ih =>
    rw [decode_windows]
    cases hw : dec w with
    | none => exact absurd (hw ▸ hdec w) (by simp)
    | some s =>
      cases hws : decode_windows dec ws with
      | none => exact absurd (hws ▸ ih) (by simp)
      | some ss => rfl

/-- A slice lying inside the first `bound` elements only depends on
them. -/
theorem take_agree (t₁ t₂ : List Nat) (bound s m : Nat)
    (h : t₁.take bound = t₂.take bound) (hsm : s + m ≤ bound) :
    (t₁.drop s).take m = (t₂.drop s).take m := by
  have h₁ : ∀ t : List Nat, (t.drop s).take m = ((t.take bound).drop s).take m := by
    intro t
    rw [List.take_drop, List.take_drop, List.take_take,
      Nat.min_eq_left (by omega)]
  rw [h₁ t₁, h₁ t₂, h]

/-- The windows only depend on the first `bound` tokens when every
window the fuel allows lies inside them: the text beyond is
discarded. -/
theorem slide_agree (max_tokens overlap bound : Nat)
    (hob : overlap ≤ max_tokens) :
    ∀ fuel start (t₁ t₂ : List Nat),
      t₁.take bound = t₂.take bound →
      bound < t₁.length → bound < t₂.length →
      (∀ k, k < fuel → start + k * (max_tokens - overlap) + max_tokens ≤ bound) →
      slide t₁ max_tokens overlap start fuel =
        slide t₂ max_tokens overlap start fuel := by
  intro fuel
  induction fuel with
  | zero => intro start t₁ t₂ _ _ _ _; rfl
  | succ n ih =>
    intro start t₁ t₂ hagree h₁ h₂ hk
    have hwin : start + max_tokens ≤ bound := by
      have := hk 0 (Nat.succ_pos n)
      omega
    have he₁ : min (start + max_tokens) t₁.length = start + max_tokens :=
      Nat.min_eq_left (by omega)
    have he₂ : min (start + max_tokens) t₂.length = start + max_tokens :=
      Nat.min_eq_left (by omega)
    rw [slide, slide, if_pos (by omega : start < t₁.length),
      if_pos (by omega : start < t₂.length)]
    simp only [he₁, he₂]
    rw [if_neg (by omega : ¬ t₁.length ≤ start + max_tokens - overlap),
      if_neg (by omega : ¬ t₂.length ≤ start + max_tokens - overlap)]
    have hchunk : (t₁.drop start).take (start + max_tokens - start) =
        (t₂.drop start).take (start + max_tokens - start) :=
      take_agree t₁ t₂ bound start _ hagree (by omega)
    rw [hchunk, ih (start + max_tokens - overlap) t₁ t₂ hagree h₁ h₂ ?_]
    intro k hkn
    have h3 := hk (k + 1) (by omega)
    have h4 : (k + 1) * (max_tokens - overlap) =
        k * (max_tokens - overlap) + (max_tokens - overlap) := by ring
    omega

/-- Whenever the token count exceeds `max_tokens` and the overlap is
positive, the loop runs to the cap: `chunk_text` returns exactly
`max_chunks` chunks and prints the truncation warning, whatever the
text. -/
theorem chunk_count_hits_cap (enc : String → Option (List Nat))
    (dec : List Nat → Option String) (text : String)
    (tokens : List Nat) (max_tokens overlap : Nat)
    (henc : enc text = some tokens)
    (hgt : max_tokens < tokens.length)
    (hov : 1 ≤ overlap)
    (hdec : ∀ w, (dec w).isSome) :
    (chunk_text enc dec text max_tokens overlap).length = max_chunks ∧
    chunk_truncated enc dec text max_tokens overlap = true := by
  have hwlen : (slide tokens max_tokens overlap 0 max_chunks).length =
      max_chunks :=
    slide_length_eq_fuel tokens max_tokens overlap hov max_chunks 0 (by omega)
  obtain ⟨l, hl⟩ := Option.isSome_iff_exists.mp
    (decode_windows_isSome dec hdec (slide tokens max_tokens overlap 0 max_chunks))
  have hllen : l.length = max_chunks :=
    (decode_windows_length dec _ l hl).trans hwlen
  unfold chunk_text chunk_truncated chunk_text_core
  rw [henc]
  simp only [if_neg (by omega : ¬ tokens.length ≤ max_tokens), hl]
  refine ⟨hllen, ?_⟩
  rw [hllen]
  simp

/-- C1: at the default settings a 1200-token text does NOT yield 2
chunks: the loop exit conditions never fire once the window reaches
the end of the text (the new start, end minus overlap, stays below the
token count), so `chunk_text` re-emits the final window until the cap
and returns 1000 chunks, with the truncation warning printed. -/
theorem claim_C1_code_eval :
    (chunk_text (fun _ => some (List.range 1200)) (fun _ => some "c")
      "doc" 800 150).length = 1000 ∧
    (chunk_text (fun _ => some (List.range 1200)) (fun _ => some "c")
      "doc" 800 150).length ≠ 2 ∧
    chunk_truncated (fun _ => some (List.range 1200)) (fun _ => some "c")
      "doc" 800 150 = true := by
  have h := chunk_count_hits_cap (fun _ => some (List.range 1200))
    (fun _ => some "c") "doc" (List.range 1200) 800 150 rfl
    (by rw [List.length_range]; omega) (by omega) (fun _ => rfl)
  refine ⟨h.1, ?_, h.2⟩
  rw [h.1]
  decide

/-- C2: a text whose token count is at most `max_tokens` is returned as
the single chunk `[text]`, unchanged — no decode round trip. -/
theorem claim_C2_single_chunk (enc : String → Option (List Nat))
    (dec : List Nat → Option String) (text : String)
    (max_tokens overlap : Nat) (tokens : List Nat)
    (henc : enc text = some tokens) (hle : tokens.length ≤ max_tokens) :
    chunk_text enc dec text max_tokens overlap = [text] := by
  unfold chunk_text chunk_text_core
  rw [henc]
  simp [hle]

/-- Witness for C2 at a concrete 3-token text. -/
theorem claim_C2_witness :
    chunk_text (fun _ => some [1, 2, 3]) (fun _ => some "x") "abc" 800 150 =
      ["abc"] :=
  claim_C2_single_chunk _ _ _ _ _ [1, 2, 3] rfl (by decide)

/-- C3: a text whose token count needs more than 1000 chunks
(more than 650150 tokens at the default settings) yields exactly 1000
chunks, the truncation warning fires, and the windows depend only on
the first 650150 tokens — the remainder of the text is discarded. -/
theorem claim_C3_cap (enc : String → Option (List Nat))
    (dec : List Nat → Option String) (text : String) (tokens : List Nat)
    (henc : enc text = some tokens)
    (hbig : 650150 < tokens.length)
    (hdec : ∀ w, (dec w).isSome) :
    (chunk_text enc dec text 800 150).length = 1000 ∧
    chunk_truncated enc dec text 800 150 = true ∧
    ∀ tokens₂ : List Nat, tokens.take 650150 = tokens₂.take 650150 →
      650150 < tokens₂.length →
      slide tokens 800 150 0 max_chunks = slide tokens₂ 800 150 0 max_chunks := by
  have h := chunk_count_hits_cap enc dec text tokens 800 150 henc
    (by omega) (by omega) hdec
  refine ⟨h.1, h.2, ?_⟩
  intro tokens₂ hagree h₂
  exact slide_agree 800 150 650150 (by omega) max_chunks 0 tokens tokens₂
    hagree hbig h₂
    (by intro k hkn; simp only [max_chunks] at hkn; omega)

/-- Witness for C3 at a concrete 650151-token text. -/
theorem claim_C3_witness :
    (chunk_text (fun _ => some (List.range 650151)) (fun _ => some "w")
      "t" 800 150).length = 1000 :=
  (claim_C3_cap (fun _ => some (List.range 650151)) (fun _ => some "w") "t"
    (List.range 650151) rfl (by rw [List.length_range]; omega)
    (fun _ => rfl)).1

/-- C9: `chunk_text` never raises: a tokenization failure (the encoder
throws) and a decoding failure (any window fails to decode) both fall
back to the original text as a single one-element chunk list. -/
theorem claim_C9_fallback (enc : String → Option (List Nat))
    (dec : List Nat → Option String) (text : String)
    (max_tokens overlap : Nat) :
    (enc text = none → chunk_text enc dec text max_tokens overlap = [text]) ∧
    (∀ tokens, enc text = some tokens → max_tokens < tokens.length →
      decode_windows dec (slide tokens max_tokens overlap 0 max_chunks) = none →
      chunk_text enc dec text max_tokens overlap = [text]) := by
  constructor
  · intro h
    unfold chunk_text chunk_text_core
    rw [h]
  · intro tokens henc hgt hdec
    unfold chunk_text chunk_text_core
    rw [henc]
    simp only [if_neg (by omega : ¬ tokens.length ≤ max_tokens), hdec]

/-- Witness for C9: a throwing tokenizer yields the single original
chunk. -/
theorem claim_C9_witness :
    chunk_text (fun _ => none) (fun _ => some "x") "body" 800 150 =
      ["body"] :=
  (claim_C9_fallback (fun _ => none) (fun _ => some "x") "body" 800 150).1 rfl


/-- C4: the DocumentRecord identifier is a pure deterministic function
of (filename, chunk index, total chunk count): it equals the MD5 hash
of the filename concatenated with the suffix `_chunk` and the index
when more than one chunk exists and `_single` otherwise, and does not
depend on the chunk content, metadata, embedding, file path, size or
timestamp — so two runs over an unchanged file produce identical
ids. -/
theorem claim_C4_deterministic_id :
    ∀ (md5 : String → String) (file_name fpath fpath' : String)
      (fsize fsize' : Nat) (meta meta' : Metadata) (now now' : String)
      (n i : Nat) (chunk chunk' : String) (emb emb' : List Int),
      (assemble_document md5 file_name fpath fsize meta now n i chunk
          emb).id =
        (assemble_document md5 file_name fpath' fsize' meta' now' n i chunk'
          emb').id ∧
      (assemble_document md5 file_name fpath fsize meta now n i chunk
          emb).id = md5 (file_name ++ chunk_suffix i n) ∧
      chunk_suffix i n =
        (if 1 < n then "_chunk" ++ toString i else "_single") := by
  intro md5 file_name fpath fpath' fsize fsize' meta meta' now now' n i
    chunk chunk' emb emb'
  exact ⟨rfl, rfl, rfl⟩

/-- C5: classification applies the rules in strict precedence with the
framework keywords first — any filename containing gri (or sasb, tcfd
when the earlier framework keywords are absent) classifies by that
framework rule, whatever topical keywords it also contains; the year
is always the first 20xx match in the filename, with default 2024; and
the example filename classifies to the Global Reporting Initiative
with year 2023. -/
theorem claim_C5_precedence :
    (∀ f : String, hasSub (str_lower f) "gri" = true →
      (get_esg_metadata f).institution = "Global Reporting Initiative" ∧
      (get_esg_metadata f).document_type = "GRI Standards") ∧
    (∀ f : String, hasSub (str_lower f) "gri" = false →
      hasSub (str_lower f) "sasb" = true →
      (get_esg_metadata f).institution =
        "Sustainability Accounting Standards Board" ∧
      (get_esg_metadata f).document_type = "SASB Standards") ∧
    (∀ f : String, hasSub (str_lower f) "gri" = false →
      hasSub (str_lower f) "sasb" = false →
      hasSub (str_lower f) "tcfd" = true →
      (get_esg_metadata f).institution =
        "Task Force on Climate-related Financial Disclosures" ∧
      (get_esg_metadata f).document_type = "TCFD Framework") ∧
    (∀ f : String,
      (get_esg_metadata f).year = (find_year (str_lower f)).getD 2024) ∧
    get_esg_metadata "GRI_2023_climate_report.pdf" =
      { institution := "Global Reporting Initiative"
        document_type := "GRI Standards"
        year := 2023
        tags := "gri,standards,sustainability,reporting" } := by
  refine ⟨?_, ?_, ?_, ?_, by decide⟩
  · intro f h
    unfold get_esg_metadata
    simp only [h, if_true]
    cases hf : find_year (str_lower f) <;> simp
  · intro f hgri hsasb
    unfold get_esg_metadata
    simp only [hgri, hsasb, Bool.false_eq_true, if_false, if_true]
    cases hf : find_year (str_lower f) <;> simp
  · intro f hgri hsasb htcfd
    unfold get_esg_metadata
    simp only [hgri, hsasb, htcfd, Bool.false_eq_true, if_false, if_true]
    cases hf : find_year (str_lower f) <;> simp
  · intro f
    unfold get_esg_metadata
    cases hf : find_year (str_lower f)
    · simp only [hf, Option.getD]
      repeat' split
      all_goals rfl
    · simp [hf]

/-- Witness for C5: the framework branch applied to a concrete
filename containing both gri and climate. -/
theorem claim_C5_witness :
    (get_esg_metadata "gri_climate.pdf").institution =
      "Global Reporting Initiative" :=
  (claim_C5_precedence.1 "gri_climate.pdf" (by decide)).1


/-- Records produced from chunk index `i` on carry indices between `i`
and `i` plus the number of remaining chunks, and the file's total chunk
count. -/
theorem process_from_mem (md5 : String → String)
    (svc : String → Except Unit (List Int)) (fn fp : String) (fs : Nat)
    (meta : Metadata) (now : String) (n : Nat) :
    ∀ (cs : List String) (i : Nat) (r : DocumentRecord),
      r ∈ process_chunks_from md5 svc fn fp fs meta now n i cs →
      i ≤ r.chunk_index ∧ r.chunk_index < i + cs.length ∧
        r.total_chunks = n := by
  intro cs
  induction cs with
  | nil => intro i r hr; simp [process_chunks_from] at hr
  | cons c rest ih =>
    intro i r hr
    rw [process_chunks_from] at hr
    by_cases h : (get_embeddings svc c).isEmpty
    · simp only [h, if_true] at hr
      have := ih (i + 1) r hr
      refine ⟨by omega, by simp only [List.length_cons]; omega, this.2.2⟩
    · simp only [h, Bool.false_eq_true, if_false, List.mem_cons] at hr
      rcases hr with rfl | hr
      · exact ⟨Nat.le_refl _,
          by show i < i + (c :: rest).length
             simp only [List.length_cons]
             omega, rfl⟩
      · have := ih (i + 1) r hr
        refine ⟨by omega, by simp only [List.length_cons]; omega, this.2.2⟩

/-- The records of one file are produced with strictly increasing chunk
indices. -/
theorem process_from_pairwise (md5 : String → String)
    (svc : String → Except Unit (List Int)) (fn fp : String) (fs : Nat)
    (meta : Metadata) (now : String) (n : Nat) :
    ∀ (cs : List String) (i : Nat),
      List.Pairwise (fun a b => a.chunk_index < b.chunk_index)
        (process_chunks_from md5 svc fn fp fs meta now n i cs) := by
  intro cs
  induction cs with
  | nil => intro i; simp [process_chunks_from]
  | cons c rest ih =>
    intro i
    rw [process_chunks_from]
    by_cases h : (get_embeddings svc c).isEmpty
    · simp only [h, if_true]
      exact ih (i + 1)
    · simp only [h, Bool.false_eq_true, if_false]
      refine List.Pairwise.cons ?_ (ih (i + 1))
      intro b hb
      have := process_from_mem md5 svc fn fp fs meta now n rest (i + 1) b hb
      show i < b.chunk_index
      omega

/-- The record count is the chunk count minus the chunks whose
embedding came back empty. -/
theorem process_from_length (md5 : String → String)
    (svc : String → Except Unit (List Int)) (fn fp : String) (fs : Nat)
    (meta : Metadata) (now : String) (n : Nat) :
    ∀ (cs : List String) (i : Nat),
      (process_chunks_from md5 svc fn fp fs meta now n i cs).length +
        (cs.filter (fun c => (get_embeddings svc c).isEmpty)).length =
        cs.length := by
  intro cs
  induction cs with
  | nil => intro i; rfl
  | cons c rest ih =>
    intro i
    rw [process_chunks_from]
    by_cases h : (get_embeddings svc c).isEmpty
    · simp only [h, if_true, List.filter_cons_of_pos, List.length_cons]
      have := ih (i + 1)
      omega
    · rw [List.filter_cons_of_neg (by simp [h])]
      simp only [h, Bool.false_eq_true, if_false, List.length_cons]
      have := ih (i + 1)
      omega

/-- C8: an embedding-service failure degrades to the empty vector
instead of an exception; a chunk whose embedding is empty is skipped —
it produces no record, the loop continues, and the file's record count
is its chunk count less the number of empty-embedding chunks. -/
theorem claim_C8_empty_embedding (svc : String → Except Unit (List Int)) :
    (∀ (text : String) (e : Unit), svc text = Except.error e →
      get_embeddings svc text = []) ∧
    (∀ (md5 : String → String) (fn fp : String) (fs : Nat)
      (meta : Metadata) (now : String) (chunks : List String),
      (process_chunks md5 svc fn fp fs meta now chunks).length +
        (chunks.filter (fun c => (get_embeddings svc c).isEmpty)).length =
        chunks.length) ∧
    (∀ (md5 : String → String) (fn fp : String) (fs : Nat)
      (meta : Metadata) (now : String) (n i : Nat) (c : String)
      (rest : List String), (get_embeddings svc c).isEmpty = true →
      process_chunks_from md5 svc fn fp fs meta now n i (c :: rest) =
        process_chunks_from md5 svc fn fp fs meta now n (i + 1) rest) := by
  refine ⟨?_, ?_, ?_⟩
  · intro text e h
    unfold get_embeddings
    rw [h]
  · intro md5 fn fp fs meta now chunks
    exact process_from_length md5 svc fn fp fs meta now chunks.length chunks 0
  · intro md5 fn fp fs meta now n i c rest h
    rw [process_chunks_from]
    simp only [h, if_true]

/-- Witness for C8: a throwing service yields the empty vector. -/
theorem claim_C8_witness :
    get_embeddings (fun _ => Except.error ()) "chunk" = [] :=
  (claim_C8_empty_embedding (fun _ => Except.error ())).1 "chunk" () rfl

/-- C10: every assembled record satisfies
chunk index < total chunk count, all records of one file carry the
file's chunk count as `total_chunks`, and the chunk indices are
strictly increasing in production order. -/
theorem claim_C10_record_invariants (md5 : String → String)
    (svc : String → Except Unit (List Int)) (fn fp : String) (fs : Nat)
    (meta : Metadata) (now : String) (chunks : List String) :
    (∀ r ∈ process_chunks md5 svc fn fp fs meta now chunks,
      r.chunk_index < r.total_chunks ∧ r.total_chunks = chunks.length) ∧
    List.Pairwise (fun a b => a.chunk_index < b.chunk_index)
      (process_chunks md5 svc fn fp fs meta now chunks) := by
  constructor
  · intro r hr
    have := process_from_mem md5 svc fn fp fs meta now chunks.length chunks
      0 r hr
    refine ⟨?_, this.2.2⟩
    rw [this.2.2]
    omega
  · exact process_from_pairwise md5 svc fn fp fs meta now chunks.length
      chunks 0

/-- Witness for C10: invariants at a concrete two-chunk file. -/
theorem claim_C10_witness :
    List.Pairwise (fun a b => a.chunk_index < b.chunk_index)
      (process_chunks (fun _ => "h") (fun _ => Except.ok [0]) "f.pdf" "p" 1
        { institution := "Unknown", document_type := "ESG Document",
          year := 2024, tags := "esg,sustainability" } "" ["a", "b"]) :=
  (claim_C10_record_invariants (fun _ => "h") (fun _ => Except.ok [0])
    "f.pdf" "p" 1
    { institution := "Unknown", document_type := "ESG Document",
      year := 2024, tags := "esg,sustainability" } "" ["a", "b"]).2


/-- The batches, concatenated in order, are exactly the record
sequence. -/
theorem batches_flatten_of_le (batch_size : Nat) (hbs : 0 < batch_size) :
    ∀ (n : Nat) (docs : List DocumentRecord), docs.length ≤ n →
      (batches batch_size docs).flatten = docs := by
  intro n
  induction n with
  | zero =>
    intro docs h
    have hd : docs = [] := List.eq_nil_of_length_eq_zero (Nat.le_zero.mp h)
    subst hd
    rw [batches]
    simp
  | succ n ih =>
    intro docs h
    rw [batches]
    by_cases hd : docs.isEmpty
    · rw [dif_pos (Or.inl hd)]
      rw [List.isEmpty_iff] at hd
      simp [hd]
    · have hcond : ¬(docs.isEmpty = true ∨ batch_size = 0) := by
        simp [hd]
        omega
      rw [dif_neg hcond]
      rw [List.flatten_cons, ih (docs.drop batch_size)
        (by simp only [List.length_drop]; omega)]
      exact List.take_append_drop batch_size docs

/-- No batch holds more than `batch_size` records. -/
theorem batches_size_le (batch_size : Nat) :
    ∀ (n : Nat) (docs : List DocumentRecord), docs.length ≤ n →
      ∀ b ∈ batches batch_size docs, b.length ≤ batch_size := by
  intro n
  induction n with
  | zero =>
    intro docs h b hb
    have hd : docs = [] := List.eq_nil_of_length_eq_zero (Nat.le_zero.mp h)
    subst hd
    rw [batches] at hb
    simp at hb
  | succ n ih =>
    intro docs h b hb
    rw [batches] at hb
    by_cases hd : docs.isEmpty
    · rw [dif_pos (Or.inl hd)] at hb
      simp at hb
    · by_cases hz : batch_size = 0
      · rw [dif_pos (Or.inr hz)] at hb
        simp at hb
      · have hcond : ¬(docs.isEmpty = true ∨ batch_size = 0) := by
          simp [hd, hz]
        rw [dif_neg hcond, List.mem_cons] at hb
        rcases hb with rfl | hb
        · simp only [List.length_take]
          omega
        · exact ih (docs.drop batch_size)
            (by simp only [List.length_drop]; omega) b hb

/-- C6: the uploader slices the record sequence in order into
consecutive batches of at most `batch_size`; a batch whose service call
reports per-record outcomes adds exactly the number of reported
successes to the uploaded total, a batch whose call throws adds
nothing, and in both cases the loop proceeds to the following
batches. -/
theorem claim_C6_batch_accounting (svc : Nat → Except Unit (List Bool))
    (docs : List DocumentRecord) (batch_size : Nat)
    (hbs : 0 < batch_size) :
    ((batches batch_size docs).flatten = docs ∧
      ∀ b ∈ batches batch_size docs, b.length ≤ batch_size) ∧
    (∀ (bn : Nat) (b : List DocumentRecord)
      (rest : List (List DocumentRecord)) (result : List Bool),
      svc bn = Except.ok result →
      upload_batches svc bn (b :: rest) =
        (result.filter (fun r => r)).length +
          upload_batches svc (bn + 1) rest) ∧
    (∀ (bn : Nat) (b : List DocumentRecord)
      (rest : List (List DocumentRecord)) (e : Unit),
      svc bn = Except.error e →
      upload_batches svc bn (b :: rest) =
        upload_batches svc (bn + 1) rest) := by
  refine ⟨⟨batches_flatten_of_le batch_size hbs docs.length docs
    (Nat.le_refl _), batches_size_le batch_size docs.length docs
    (Nat.le_refl _)⟩, ?_, ?_⟩
  · intro bn b rest result h
    rw [upload_batches, h]
  · intro bn b rest e h
    rw [upload_batches, h]
    simp

/-- Witness for C6: the first batch of a concrete run reports 3
successes out of 5, and exactly 3 are added to the total. -/
theorem claim_C6_witness :
    upload_batches upload_svc_ex 0 ([[]] : List (List DocumentRecord)) =
      3 + upload_batches upload_svc_ex 1 ([] : List (List DocumentRecord)) :=
  (claim_C6_batch_accounting upload_svc_ex [] 5 (by decide)).2.1 0 [] []
    [true, true, true, false, false] rfl

/-- C7 counterexample: with the four required variables set but the
embedding API version and the deployment name absent, the pipeline
does NOT abort — configuration succeeds with the built-in defaults and
the run proceeds to the directory stage — refuting the claim that the
absence of those two values aborts the run. -/
theorem claim_C7_counterexample :
    env_with_required "AZURE_OPENAI_API_VERSION" = none ∧
    env_with_required "AZURE_OPENAI_EMBEDDINGS_DEPLOYMENT_NAME" = none ∧
    init_config env_with_required = Except.ok
      { search_endpoint := "set", search_key := "set",
        embeddings_endpoint := "set", embeddings_api_key := "set",
        api_version := "2024-02-01",
        embedding_model := "text-embedding-3-large" } ∧
    main_run env_with_required (fun s => s) (fun _ => none)
      (fun _ => none) (fun _ => "") (fun _ => Except.error ())
      (fun _ => Except.error ()) none "" = RunOutcome.dirNotFound := by
  refine ⟨rfl, rfl, rfl, rfl⟩

/-- C7 (amended): when any of the four required variables — search
endpoint, search key, embeddings endpoint, embeddings API key — is
absent or empty, the run aborts with exactly the list of missing
required variables, before any file access: the outcome is the same
whatever the directory listing, the extractor and the services. -/
theorem claim_C7_amended (env : String → Option String)
    (h : missing_vars env ≠ []) :
    init_config env = Except.error (missing_vars env) ∧
    (∀ v, v ∈ missing_vars env ↔
      v ∈ required_vars ∧ env_falsy env v = true) ∧
    ∀ (md5 : String → String) (enc : String → Option (List Nat))
      (dec : List Nat → Option String) (extract : String → String)
      (embSvc : String → Except Unit (List Int))
      (upSvc : Nat → Except Unit (List Bool))
      (listing : Option (List (String × String × Nat))) (now : String),
      main_run env md5 enc dec extract embSvc upSvc listing now =
        RunOutcome.missingVars (missing_vars env) := by
  have hcfg : init_config env = Except.error (missing_vars env) := by
    unfold init_config
    rw [if_pos h]
  refine ⟨hcfg, ?_, ?_⟩
  · intro v
    simp [missing_vars, List.mem_filter]
  · intro md5 enc dec extract embSvc upSvc listing now
    unfold main_run
    rw [hcfg]

/-- Witness for C7: the empty environment aborts with the full
required list. -/
theorem claim_C7_witness :
    init_config (fun _ => none) =
      Except.error (missing_vars (fun _ => none)) :=
  (claim_C7_amended (fun _ => none) (by decide)).1

end ESG
